import Mathlib

/-!
Verification of the session / upload coordination core of the
authenticated-document-uploader repository.

The definitions below are shallow embeddings of the TypeScript sources:

* `frontend/src/app/services/auth.service.ts`  (AuthService)
* `frontend/src/app/interceptors/auth.interceptor.ts`  (AuthInterceptor)
* `frontend/src/app/services/upload.service.ts`  (UploadService)

JavaScript machine details that matter to the properties (NaN comparison
semantics, sequential early-return validation, `Math.max(0, ...)` clamping,
first-match `findIndex` updates) are modelled explicitly.  Display-only
fields (`sizeMB`, `mimetype`) and logging side effects are omitted; network
completions are delivered as explicit events, as the code is single-threaded
and event-driven.
-/

/-! ## JavaScript numeric helpers

`JSNum` models a JS number that may be `NaN` (`none`).  In JS,
`undefined * 1000 = NaN` and every ordered comparison against `NaN` is
`false`; these two facts drive `AuthService.isTokenExpired`.
-/

/-- A JS number: `none` models `NaN` (arising from `undefined * 1000`). -/
def JSNum := Option Int

/-- JS multiplication by a constant: `NaN * k = NaN`. -/
def jsMulConst (x : JSNum) (k : Int) : JSNum :=
  match x with
  | none => none
  | some v => some (v * k)

/-- JS `a >= b` where `b` may be `NaN`: any comparison with `NaN` is false. -/
def jsGe (a : Int) (b : JSNum) : Bool :=
  match b with
  | none => false
  | some v => decide (v ≤ a)

/-! ## AuthService: token decoding and expiry (auth.service.ts 358-361, 444-453)

A stored access token is abstracted by the outcome of
`JSON.parse(atob(token.split('.')[1]))`:

* `undecodable` — the parse throws (the `catch` branch of `isTokenExpired`);
* `payload exp` — the parse succeeds; `exp = some e` when the payload has a
  numeric `exp` claim with value `e` (epoch seconds), and `exp = none` when
  the `exp` claim is missing or non-numeric (so `payload.exp * 1000` is NaN).
-/

/-- The decode outcome of an access token's payload segment. -/
inductive TokenDecode where
  | undecodable : TokenDecode
  | payload (exp : Option Int) : TokenDecode
deriving DecidableEq, Repr

/-- `AuthService.isTokenExpired`: `Date.now() >= payload.exp * 1000`,
with the `catch` branch returning `true`.  `now` is epoch milliseconds. -/
def isTokenExpired (t : TokenDecode) (now : Int) : Bool :=
  match t with
  | .undecodable => true
  | .payload exp => jsGe now (jsMulConst exp 1000)

/-- `AuthService.isAuthenticated`: `!!token && !this.isTokenExpired(token)`.
`tok = none` models no stored access token.  A pure query: it reads
localStorage and inspects the token without any mutation. -/
def isAuthenticated (tok : Option TokenDecode) (now : Int) : Bool :=
  match tok with
  | none => false
  | some t => !isTokenExpired t now

/-! ## AuthService: session state, login and logout (auth.service.ts 273-310, 394-406, 500-509) -/

/-- The session-relevant state of `AuthService`: stored tokens and cached
user in localStorage, the published subjects, and the proactive refresh
timer handle. -/
structure Session where
  accessToken : Option String
  refreshTokenStored : Option String
  userData : Option String
  currentUser : Option String
  publishedAuthenticated : Bool
  timerScheduled : Bool
deriving DecidableEq, Repr

/-- A login/refresh success payload (the parts `handleAuthSuccess` stores). -/
structure AuthResponse where
  accessToken : String
  refreshToken : String
  user : String
deriving DecidableEq, Repr

/-- An HTTP error as observed in the service (`error.status`). -/
structure HttpErr where
  status : Int
  message : String
deriving DecidableEq, Repr

/-- `AuthService.logout` restricted to session state: clear the three
localStorage keys, publish `null` user and `false` authenticated, cancel the
refresh timer.  (The fire-and-forget revoke call and the navigation are
external side effects with no session-state footprint.) -/
def logoutSession (_s : Session) : Session :=
  { accessToken := none
    refreshTokenStored := none
    userData := none
    currentUser := none
    publishedAuthenticated := false
    timerScheduled := false }

/-- `AuthService.handleAuthSuccess`: store both tokens and the user record,
publish the user and `true`, (re)schedule the proactive refresh timer. -/
def handleAuthSuccess (_s : Session) (r : AuthResponse) : Session :=
  { accessToken := some r.accessToken
    refreshTokenStored := some r.refreshToken
    userData := some r.user
    currentUser := some r.user
    publishedAuthenticated := true
    timerScheduled := true }

/-- `AuthService.handleError` (the `catchError` target of `login`/`signup`):
logs, calls `this.logout()` when `error.status === 401`, and rethrows the
error object unchanged. -/
def handleErrorSession (s : Session) (e : HttpErr) : Session :=
  if e.status = 401 then logoutSession s else s

/-- `AuthService.login`, as a state transition on the session driven by the
outcome of the POST to `/auth/login`.  Returns the session after the
`tap`/`catchError` pipe together with what the caller observes. -/
def loginStep (s : Session) (outcome : Except HttpErr AuthResponse) :
    Session × Except HttpErr AuthResponse :=
  match outcome with
  | .ok r => (handleAuthSuccess s r, .ok r)
  | .error e => (handleErrorSession s e, .error e)

/-! ## Theorems for claims C6 and C8 -/

/-- Claim C6 (code_bug evidence): `isAuthenticated()` is NOT false on every
structurally invalid token.  For a present, decodable token whose payload
lacks an `exp` claim, `payload.exp * 1000` is `NaN`, `Date.now() >= NaN`
is `false`, so `isTokenExpired` returns `false` and `isAuthenticated`
returns `true` — while the claim (and the spec's "never trust claims
without structural validity") requires `false`.  The boundary cases the
claim gets right are also evaluated: a token with `exp` equal to now is
rejected, as is an undecodable token and an absent token. -/
theorem c6_missing_exp_token_accepted :
    isAuthenticated (some (.payload none)) 1700000000000 = true ∧
    isAuthenticated (some (.payload (some 1700000000))) 1700000000000 = false ∧
    isAuthenticated (some .undecodable) 1700000000000 = false ∧
    isAuthenticated none 1700000000000 = false ∧
    isAuthenticated (some (.payload (some 1700000001))) 1700000000000 = true := by
  decide

/-- Claim C8 (counterexample): a login failure CAN mutate the session.
With an existing session and a 401 login response, `handleError` calls
`logout()`, which clears the stored tokens, cached user, published state
and refresh timer. -/
theorem c8_login_401_mutates_session :
    (loginStep
      { accessToken := some "at", refreshTokenStored := some "rt",
        userData := some "u", currentUser := some "u",
        publishedAuthenticated := true, timerScheduled := true }
      (.error { status := 401, message := "Invalid credentials" })).1 ≠
    { accessToken := some "at", refreshTokenStored := some "rt",
      userData := some "u", currentUser := some "u",
      publishedAuthenticated := true, timerScheduled := true } := by
  decide

/-- Claim C8 (amended): every login failure surfaces the error object
unchanged to the caller; a failure with status other than 401 leaves the
session exactly as it was, while a 401 failure runs logout, clearing the
stored tokens, cached user, published authenticated state and refresh
timer. -/
theorem c8_login_failure_behaviour (s : Session) (e : HttpErr) :
    (loginStep s (.error e)).2 = .error e ∧
    (e.status ≠ 401 → (loginStep s (.error e)).1 = s) ∧
    (e.status = 401 → (loginStep s (.error e)).1 = logoutSession s) := by
  refine ⟨rfl, ?_, ?_⟩
  · intro h
    simp [loginStep, handleErrorSession, h]
  · intro h
    simp [loginStep, handleErrorSession, h]

/-- Witness for `c8_login_failure_behaviour` at a concrete session and a
concrete 500-status error. -/
theorem c8_login_failure_behaviour_witness :
    (loginStep
      { accessToken := some "at", refreshTokenStored := some "rt",
        userData := some "u", currentUser := some "u",
        publishedAuthenticated := true, timerScheduled := true }
      (.error { status := 500, message := "boom" })).2 =
      .error { status := 500, message := "boom" } ∧
    (loginStep
      { accessToken := some "at", refreshTokenStored := some "rt",
        userData := some "u", currentUser := some "u",
        publishedAuthenticated := true, timerScheduled := true }
      (.error { status := 500, message := "boom" })).1 =
      { accessToken := some "at", refreshTokenStored := some "rt",
        userData := some "u", currentUser := some "u",
        publishedAuthenticated := true, timerScheduled := true } := by
  have h := c8_login_failure_behaviour
    { accessToken := some "at", refreshTokenStored := some "rt",
      userData := some "u", currentUser := some "u",
      publishedAuthenticated := true, timerScheduled := true }
    { status := 500, message := "boom" }
  exact ⟨h.1, h.2.1 (by decide)⟩

/-! ## AuthInterceptor: the 401 refresh-and-retry protocol (auth.interceptor.ts 54-99)

The client is single-threaded and event-driven, so an execution is a
sequence of atomic events applied to the interceptor's state:

* `enter401 c` — request `c` received a 401 (with a bearer token attached)
  and `handle401Error` runs synchronously to completion;
* `refreshOk tok` / `refreshFail` — the interceptor-owned refresh POST
  (the one started by the winning `enter401`) completes;
* `directRefresh` — `AuthService.refreshToken()` is invoked outside the
  interceptor (the proactive `scheduleTokenRefresh` timer, or a component
  calling it directly); `refreshToken()` itself has no single-flight guard
  and issues its own POST `/auth/refresh` whenever a refresh token is stored.

`inFlightRefresh` counts outstanding POST `/auth/refresh` network calls and
`refreshCallsIssued` the total issued. `waiting` holds the callers parked on
`refreshTokenSubject.pipe(filter(token != null), take(1))`; they are
released only when the subject receives a non-null token, which happens
only in the success path. -/

/-- The outcome a single intercepted request eventually observes. -/
inductive ReqOutcome where
  | retriedWith (tok : Nat) : ReqOutcome
  | failedRefresh : ReqOutcome
  | failedNoRefreshToken : ReqOutcome
deriving DecidableEq, Repr

/-- Interceptor + refresh-endpoint state. Callers and tokens are `Nat`. -/
structure ItcState where
  isRefreshing : Bool
  subjectVal : Option Nat
  refreshTokenStored : Bool
  inFlightRefresh : Nat
  refreshCallsIssued : Nat
  initiatingCaller : Option Nat
  waiting : List Nat
  settled : List (Nat × ReqOutcome)
  loggedOut : Bool
deriving DecidableEq, Repr

/-- Events of the refresh protocol. -/
inductive ItcEvent where
  | enter401 (c : Nat) : ItcEvent
  | refreshOk (tok : Nat) : ItcEvent
  | refreshFail : ItcEvent
  | directRefresh : ItcEvent
deriving DecidableEq, Repr

/-- One atomic event of the 401/refresh protocol, transcribed from
`handle401Error` and `AuthService.refreshToken`. -/
def itcStep (s : ItcState) (e : ItcEvent) : ItcState :=
  match e with
  | .enter401 c =>
    if s.isRefreshing then
      -- "If refresh is in progress, wait for it to complete":
      -- park on refreshTokenSubject.pipe(filter(nonnull), take(1)).
      { s with waiting := s.waiting ++ [c] }
    else
      -- isRefreshing := true; subject.next(null)
      if s.refreshTokenStored then
        -- authService.refreshToken() issues POST /auth/refresh
        { s with isRefreshing := true, subjectVal := none,
                 inFlightRefresh := s.inFlightRefresh + 1,
                 refreshCallsIssued := s.refreshCallsIssued + 1,
                 initiatingCaller := some c }
      else
        -- no refresh token: isRefreshing := false; logout(); throwError
        { s with subjectVal := none, loggedOut := true,
                 settled := s.settled ++ [(c, .failedNoRefreshToken)] }
  | .refreshOk tok =>
    match s.initiatingCaller with
    | none => s
    | some c0 =>
      -- AuthService tap: handleAuthSuccess (keeps a refresh token stored);
      -- interceptor switchMap: isRefreshing := false; subject.next(token);
      -- the initiator retries, and every parked caller's filter+take(1)
      -- fires with the new token.
      { s with isRefreshing := false, subjectVal := some tok,
               refreshTokenStored := true,
               inFlightRefresh := s.inFlightRefresh - 1,
               initiatingCaller := none,
               waiting := [],
               settled := s.settled ++ [(c0, .retriedWith tok)]
                          ++ s.waiting.map (fun c => (c, .retriedWith tok)) }
  | .refreshFail =>
    match s.initiatingCaller with
    | none => s
    | some c0 =>
      -- AuthService catchError: logout() (clears the stored refresh token);
      -- interceptor catchError: isRefreshing := false; logout(); rethrow to
      -- the initiator only.  The subject never receives a non-null value,
      -- so `waiting` is untouched.
      { s with isRefreshing := false,
               refreshTokenStored := false,
               inFlightRefresh := s.inFlightRefresh - 1,
               initiatingCaller := none,
               settled := s.settled ++ [(c0, .failedRefresh)],
               loggedOut := true }
  | .directRefresh =>
    -- AuthService.refreshToken() outside the interceptor: unguarded.
    if s.refreshTokenStored then
      { s with inFlightRefresh := s.inFlightRefresh + 1,
               refreshCallsIssued := s.refreshCallsIssued + 1 }
    else
      { s with loggedOut := true }

/-- Run a sequence of protocol events. -/
def itcRun (s : ItcState) (es : List ItcEvent) : ItcState :=
  es.foldl itcStep s

/-- The initial interceptor state of an "expired access token" incident:
no refresh in flight, a refresh token stored. -/
def itcInit : ItcState :=
  { isRefreshing := false, subjectVal := none, refreshTokenStored := true,
    inFlightRefresh := 0, refreshCallsIssued := 0, initiatingCaller := none,
    waiting := [], settled := [], loggedOut := false }

/-- An event belongs to the interceptor's own 401 path (it is not a direct
`AuthService.refreshToken()` invocation). -/
def itcEventOnPath : ItcEvent → Bool
  | .directRefresh => false
  | _ => true

/-- The single-flight invariant of the 401 path: at most one
interceptor-owned refresh call outstanding, tied to `isRefreshing` and the
recorded initiator. -/
def itcInv (s : ItcState) : Prop :=
  s.inFlightRefresh ≤ 1 ∧
  (s.initiatingCaller.isSome ↔ s.inFlightRefresh = 1) ∧
  (s.inFlightRefresh = 1 → s.isRefreshing = true)

theorem itcInv_init : itcInv itcInit := by
  refine ⟨by decide, by simp [itcInit], by simp [itcInit]⟩

theorem itcInv_step (s : ItcState) (e : ItcEvent) (hp : itcEventOnPath e = true)
    (h : itcInv s) : itcInv (itcStep s e) := by
  obtain ⟨h1, h2, h3⟩ := h
  cases e with
  | enter401 c =>
    simp only [itcStep]
    by_cases hr : s.isRefreshing = true
    · rw [if_pos hr]
      exact ⟨h1, h2, fun _ => hr⟩
    · rw [if_neg hr]
      by_cases ht : s.refreshTokenStored = true
      · rw [if_pos ht]
        have hz : s.inFlightRefresh = 0 := by
          by_contra hnz
          exact hr (h3 (by omega))
        exact ⟨by simp [hz], by simp [hz], fun _ => rfl⟩
      · rw [if_neg ht]
        exact ⟨h1, h2, h3⟩
  | refreshOk tok =>
    cases hi : s.initiatingCaller with
    | none => simp only [itcStep, hi]; exact ⟨h1, h2, h3⟩
    | some c0 =>
      have h11 : s.inFlightRefresh = 1 := h2.mp (by simp [hi])
      simp [itcInv, itcStep, hi, h11]
  | refreshFail =>
    cases hi : s.initiatingCaller with
    | none => simp only [itcStep, hi]; exact ⟨h1, h2, h3⟩
    | some c0 =>
      have h11 : s.inFlightRefresh = 1 := h2.mp (by simp [hi])
      simp [itcInv, itcStep, hi, h11]
  | directRefresh => simp [itcEventOnPath] at hp

theorem itcInv_run (s : ItcState) (es : List ItcEvent)
    (hp : ∀ e ∈ es, itcEventOnPath e = true) (h : itcInv s) :
    itcInv (itcRun s es) := by
  induction es generalizing s with
  | nil => exact h
  | cons e es ih =>
    have he : itcEventOnPath e = true := hp e (List.mem_cons_self e es)
    exact ih (itcStep s e)
      (fun x hx => hp x (List.mem_cons_of_mem e hx))
      (itcInv_step s e he h)

/-! ## Theorems for claims C1 and C2 -/

/-- Claim C1 (counterexample): refresh is NOT globally single-flight.
`AuthService.refreshToken()` has no in-flight guard, so while the
interceptor's 401 path has one refresh POST outstanding, a direct
invocation of `refreshToken()` (for example the proactive
`scheduleTokenRefresh` timer firing on the expired token) issues a second
POST `/auth/refresh`: two refresh calls are in flight simultaneously. -/
theorem c1_two_refreshes_in_flight :
    (itcRun itcInit [.enter401 0, .directRefresh]).inFlightRefresh = 2 := by
  decide

/-- Claim C1 (amended): the single-flight guarantee holds exactly for the
interceptor's 401 path.  First conjunct: along any event sequence that
stays on that path (no direct `AuthService.refreshToken()` invocations),
at most one refresh call is ever in flight.  Remaining conjuncts: five
requests racing a 401 incident produce exactly one refresh network call,
and on its success all five are retried with the one returned token. -/
theorem c1_single_flight_on_401_path (es : List ItcEvent)
    (hp : ∀ e ∈ es, itcEventOnPath e = true) :
    (itcRun itcInit es).inFlightRefresh ≤ 1 ∧
    (itcRun itcInit [.enter401 0, .enter401 1, .enter401 2, .enter401 3,
        .enter401 4, .refreshOk 7]).refreshCallsIssued = 1 ∧
    (itcRun itcInit [.enter401 0, .enter401 1, .enter401 2, .enter401 3,
        .enter401 4, .refreshOk 7]).settled =
      [(0, .retriedWith 7), (1, .retriedWith 7), (2, .retriedWith 7),
       (3, .retriedWith 7), (4, .retriedWith 7)] :=
  ⟨(itcInv_run itcInit es hp itcInv_init).1, by decide, by decide⟩

/-- Witness for `c1_single_flight_on_401_path` on a concrete trace of two
racing callers whose shared refresh succeeds. -/
theorem c1_single_flight_on_401_path_witness :
    (itcRun itcInit [.enter401 0, .enter401 1, .refreshOk 3]).inFlightRefresh ≤ 1 :=
  (c1_single_flight_on_401_path [.enter401 0, .enter401 1, .refreshOk 3]
    (by decide)).1

/-- Claim C2 (code_bug evidence): when the shared refresh fails, only the
initiating request observes the failure; a request that queued behind the
in-flight refresh is still parked on `refreshTokenSubject` (which never
emits a non-null value on the failure path) — it never settles, while
logout does run.  The claim (and the spec) requires the queued request to
fail with the refresh error. -/
theorem c2_queued_request_never_settles_on_refresh_failure :
    (itcRun itcInit [.enter401 0, .enter401 1, .refreshFail]).settled =
      [(0, .failedRefresh)] ∧
    (itcRun itcInit [.enter401 0, .enter401 1, .refreshFail]).waiting = [1] ∧
    (itcRun itcInit [.enter401 0, .enter401 1, .refreshFail]).loggedOut = true := by
  decide

/-! ## UploadService: data model (upload.service.ts 18-37, upload.model.ts)

`UFile` mirrors `FileUpload` (display-only `sizeMB`/`mimetype` omitted;
`hasFile` models presence of the raw `file: File` handle).  `UQueue`
mirrors the `UploadQueue` value of `uploadQueueSubject`.  The source's
`generateId()` draws random unique ids; the model makes id generation
explicit with a `nextId` counter, preserving the only property the code
relies on (ids of enqueued tasks are fresh). -/

/-- `FileUpload.status`. -/
inductive UStatus where
  | pending
  | uploading
  | success
  | failed
deriving DecidableEq, Repr

/-- A queued upload task (`FileUpload`). -/
structure UFile where
  id : Nat
  originalName : String
  size : Nat
  status : UStatus
  progress : Nat
  errorMsg : Option String
  hasFile : Bool
deriving DecidableEq, Repr

/-- The published queue value (`UploadQueue`), plus the id counter. -/
structure UQueue where
  files : List UFile
  activeUploads : Int
  maxConcurrent : Int
  nextId : Nat
deriving DecidableEq, Repr

/-- `MAX_CONCURRENT_UPLOADS = 3`. -/
def MAX_CONCURRENT_UPLOADS : Int := 3

/-- `ALLOWED_FILE_TYPES = ['pdf', 'docx', 'txt']`. -/
def ALLOWED_FILE_TYPES : List String := ["pdf", "docx", "txt"]

/-- `MAX_FILE_SIZE = 100 * 1024 * 1024` (the code comment says 10MB, the
constant is 100MB; the constant is authoritative). -/
def MAX_FILE_SIZE : Nat := 100 * 1024 * 1024

/-- A candidate browser `File` offered to `addFilesToQueue`. -/
structure Candidate where
  name : String
  size : Nat
deriving DecidableEq, Repr

/-- A validation failure reason, keeping the data the source interpolates
into its message strings. -/
inductive VError where
  | sizeExceeded (sizeBytes : Nat) : VError
  | typeNotAllowed (ext : String) : VError
  | nameTooLong : VError
deriving DecidableEq, Repr

/-- JS `String.prototype.split('.')` on the name's characters: always at
least one (possibly empty) segment, a new segment after each dot. -/
def splitOnDot : List Char → List (List Char)
  | [] => [[]]
  | c :: rest =>
    match splitOnDot rest with
    | [] => [[]]
    | seg :: segs =>
      if c = '.' then [] :: seg :: segs else (c :: seg) :: segs

/-- `file.name.split('.').pop()?.toLowerCase()` — JS `split` never returns
an empty array, so `pop` yields the last segment (possibly `""`). -/
def fileExt (name : String) : String :=
  String.mk (((splitOnDot name.toList).getLastD []).map Char.toLower)

/-- `UploadService.validateFile` (upload.service.ts 286-313): three checks
run sequentially with an early return, so only the FIRST violated rule's
reason is ever produced. -/
def validateFile (c : Candidate) : Option VError :=
  if c.size > MAX_FILE_SIZE then
    some (.sizeExceeded c.size)
  else
    let ext := fileExt c.name
    if ext = "" ∨ ¬ (ALLOWED_FILE_TYPES.contains ext) then
      some (.typeNotAllowed ext)
    else if c.name.length > 255 then
      some .nameTooLong
    else
      none

/-! ## UploadService: queue operations (upload.service.ts 42-224, 316-442)

Every state-changing callback of the service runs atomically on the single
JS thread; an execution is a sequence of operations/events (`UOp`) folded
over the queue state.  Network completions (`UOp.complete`) are events the
transport delivers later; the service applies its `subscribe` callbacks to
whatever the queue state is at that moment. -/

/-- `f.status === 'pending'`. -/
def isPending (f : UFile) : Bool := f.status == .pending

/-- Update the first file whose id matches, like `findIndex` followed by a
single-slot write (absent id: no change, as the source checks `!== -1`). -/
def setFirstById (fs : List UFile) (fid : Nat) (g : UFile → UFile) : List UFile :=
  match fs with
  | [] => []
  | f :: rest =>
    if f.id = fid then g f :: rest else f :: setFirstById rest fid g

/-- `UploadService.updateFileStatus` (316-332): set the status and, only
when a new error string is supplied, replace the stored error
(`error: error || queue.files[fileIndex].error`). -/
def writeStatus (st : UStatus) (err : Option String) (f : UFile) : UFile :=
  { f with status := st,
           errorMsg := match err with
                       | some e => some e
                       | none => f.errorMsg }

def updateFileStatus (q : UQueue) (fid : Nat) (st : UStatus)
    (err : Option String) : UQueue :=
  { q with files := setFirstById q.files fid (writeStatus st err) }

def writeProgress (p : Nat) (f : UFile) : UFile :=
  { f with progress := p }

/-- `UploadService.updateFileProgress` (337-350). -/
def updateFileProgress (q : UQueue) (fid : Nat) (p : Nat) : UQueue :=
  { q with files := setFirstById q.files fid (writeProgress p) }

/-- `UploadService.incrementActiveUploads` (368-374). -/
def incrementActiveUploads (q : UQueue) : UQueue :=
  { q with activeUploads := q.activeUploads + 1 }

/-- `UploadService.decrementActiveUploads` (379-385):
`Math.max(0, queue.activeUploads - 1)`. -/
def decrementActiveUploads (q : UQueue) : UQueue :=
  { q with activeUploads := max 0 (q.activeUploads - 1) }

/-- `UploadService.startSingleUpload` (127-146), queue-state part: guard on
the raw file handle, mark the task `uploading`, increment the counter and
issue the POST (the request itself is external; its completion arrives
later as a `UOp.complete` event). -/
def startSingleUpload (q : UQueue) (f : UFile) : UQueue :=
  if f.hasFile = false then
    updateFileStatus q f.id .failed (some "File object is missing")
  else
    incrementActiveUploads (updateFileStatus q f.id .uploading none)

/-- `UploadService.processUploadQueue` (110-122): take up to
`maxConcurrent - activeUploads` pending files, in queue order, and start
each. -/
def processUploadQueue (q : UQueue) : UQueue :=
  let pendingFiles := q.files.filter isPending
  let canStartMore := q.maxConcurrent - q.activeUploads
  if 0 < canStartMore ∧ pendingFiles ≠ [] then
    (pendingFiles.take canStartMore.toNat).foldl startSingleUpload q
  else
    q

/-- `UploadService.startUploadById` (98-105): start the matching pending
file directly, without consulting the concurrency budget. -/
def startUploadById (q : UQueue) (fid : Nat) : UQueue :=
  match q.files.find? (fun f => f.id == fid && isPending f) with
  | some f => startSingleUpload q f
  | none => q

/-- `UploadService.addFilesToQueue` (42-85), state part: validate each
candidate, append the valid ones as fresh `pending` tasks in input order.
Rejected candidates only feed the notification report (`admissionReport`);
no scheduling happens here (the source logs "Use startUpload() to begin
uploading"). -/
def mkTasks (startId : Nat) : List Candidate → List UFile
  | [] => []
  | c :: cs =>
    match validateFile c with
    | none =>
      { id := startId, originalName := c.name, size := c.size,
        status := .pending, progress := 0, errorMsg := none, hasFile := true }
        :: mkTasks (startId + 1) cs
    | some _ => mkTasks startId cs

/-- The batched rejection report (`errors` in `addFilesToQueue`, shown once
via `alert`): one entry per invalid candidate, carrying the single reason
`validateFile` returned. -/
def admissionReport (cs : List Candidate) : List (String × VError) :=
  cs.filterMap (fun c => (validateFile c).map (fun e => (c.name, e)))

/-- The queue-state transition of `addFilesToQueue`. -/
def addFilesToQueue (q : UQueue) (cs : List Candidate) : UQueue :=
  { q with files := q.files ++ mkTasks q.nextId cs,
           nextId := q.nextId + cs.length }

/-- `UploadService.removeFromQueue` (355-363). -/
def removeFromQueue (q : UQueue) (fid : Nat) : UQueue :=
  { q with files := q.files.filter (fun f => f.id != fid) }

/-- `UploadService.cancelUpload` (189-191): removal only; the in-flight
request is not aborted and `activeUploads` is not touched here. -/
def cancelUpload (q : UQueue) (fid : Nat) : UQueue :=
  removeFromQueue q fid

/-- `UploadService.cancelAllUploads` (196-209): publish an empty queue with
the counter reset to 0. -/
def cancelAllUploads (q : UQueue) : UQueue :=
  { files := [], activeUploads := 0, maxConcurrent := MAX_CONCURRENT_UPLOADS,
    nextId := q.nextId }

def resetForRetry (f : UFile) : UFile :=
  { f with status := .pending, progress := 0, errorMsg := none }

/-- `UploadService.retryUpload` (214-224): only a `failed` task is reset to
`pending` (progress 0, error cleared), then the scheduler runs. -/
def retryUpload (q : UQueue) (fid : Nat) : UQueue :=
  match q.files.find? (fun f => f.id == fid) with
  | some f =>
    if f.status == .failed then
      processUploadQueue { q with files := setFirstById q.files fid resetForRetry }
    else q
  | none => q

/-- `UploadService.clearCompletedUploads` (432-442). -/
def clearCompletedUploads (q : UQueue) : UQueue :=
  { q with files := q.files.filter (fun f => isPending f || f.status == .uploading) }

/-- How a task's network call terminates, as seen by `startSingleUpload`'s
subscriber (148-183): an HTTP response whose body reports the file
successful, an HTTP response reporting it failed, or a transport error. -/
inductive NetOutcome where
  | respSuccess : NetOutcome
  | respFailed (err : String) : NetOutcome
  | transportError (err : String) : NetOutcome
deriving DecidableEq, Repr

/-- Delivery of a (possibly abandoned) network completion for task `fid`.
On a transport error BOTH the `catchError` handler (`handleUploadError`,
390-396) and the `subscribe` error callback (178-182) run: the status is
written and the counter decremented twice, each followed by a scheduler
pass. -/
def completeUpload (q : UQueue) (fid : Nat) (o : NetOutcome) : UQueue :=
  match o with
  | .respSuccess =>
    processUploadQueue (decrementActiveUploads (updateFileStatus q fid .success none))
  | .respFailed e =>
    processUploadQueue (decrementActiveUploads (updateFileStatus q fid .failed (some e)))
  | .transportError e =>
    let q1 := processUploadQueue
      (decrementActiveUploads (updateFileStatus q fid .failed (some e)))
    processUploadQueue (decrementActiveUploads (updateFileStatus q1 fid .failed (some e)))

/-- The atomic operations/events of the upload queue. -/
inductive UOp where
  | addFiles (cs : List Candidate) : UOp
  | startAll : UOp
  | startById (fid : Nat) : UOp
  | progressEvent (fid : Nat) (p : Nat) : UOp
  | complete (fid : Nat) (o : NetOutcome) : UOp
  | cancel (fid : Nat) : UOp
  | cancelAll : UOp
  | retry (fid : Nat) : UOp
  | clearCompleted : UOp
deriving DecidableEq, Repr

/-- One atomic operation of the upload service. -/
def uStep (q : UQueue) : UOp → UQueue
  | .addFiles cs => addFilesToQueue q cs
  | .startAll => processUploadQueue q
  | .startById fid => startUploadById q fid
  | .progressEvent fid p => updateFileProgress q fid p
  | .complete fid o => completeUpload q fid o
  | .cancel fid => cancelUpload q fid
  | .cancelAll => cancelAllUploads q
  | .retry fid => retryUpload q fid
  | .clearCompleted => clearCompletedUploads q

/-- Run a sequence of operations. -/
def uRun (q : UQueue) (ops : List UOp) : UQueue :=
  ops.foldl uStep q

/-- The initial (service-construction) queue value. -/
def initialQueue : UQueue :=
  { files := [], activeUploads := 0, maxConcurrent := MAX_CONCURRENT_UPLOADS,
    nextId := 0 }

/-- The status of the task `fid`, read the way the source reads it
(first match by id). -/
def statusOf (q : UQueue) (fid : Nat) : Option UStatus :=
  (q.files.find? (fun f => f.id == fid)).map UFile.status

/-- Sequences of operations in which every upload start goes through the
scheduler (no `startUploadById`). -/
def schedulerOnly (ops : List UOp) : Bool :=
  ops.all (fun op => match op with | .startById _ => false | _ => true)

/-! ## Counter bookkeeping lemmas -/

theorem updateFileStatus_activeUploads (q : UQueue) (fid : Nat) (st : UStatus)
    (e : Option String) :
    (updateFileStatus q fid st e).activeUploads = q.activeUploads := rfl

theorem updateFileStatus_maxConcurrent (q : UQueue) (fid : Nat) (st : UStatus)
    (e : Option String) :
    (updateFileStatus q fid st e).maxConcurrent = q.maxConcurrent := rfl

theorem incrementActiveUploads_files (q : UQueue) :
    (incrementActiveUploads q).files = q.files := rfl

theorem decrementActiveUploads_files (q : UQueue) :
    (decrementActiveUploads q).files = q.files := rfl

theorem startSingleUpload_activeUploads_le (q : UQueue) (f : UFile) :
    (startSingleUpload q f).activeUploads ≤ q.activeUploads + 1 := by
  unfold startSingleUpload
  by_cases h : f.hasFile = false
  · rw [if_pos h, updateFileStatus_activeUploads]; omega
  · rw [if_neg h]
    show (updateFileStatus q f.id .uploading none).activeUploads + 1 ≤ _
    rw [updateFileStatus_activeUploads]

theorem startSingleUpload_activeUploads_ge (q : UQueue) (f : UFile) :
    q.activeUploads ≤ (startSingleUpload q f).activeUploads := by
  unfold startSingleUpload
  by_cases h : f.hasFile = false
  · rw [if_pos h, updateFileStatus_activeUploads]
  · rw [if_neg h]
    show q.activeUploads ≤ (updateFileStatus q f.id .uploading none).activeUploads + 1
    rw [updateFileStatus_activeUploads]; omega

theorem startSingleUpload_maxConcurrent (q : UQueue) (f : UFile) :
    (startSingleUpload q f).maxConcurrent = q.maxConcurrent := by
  unfold startSingleUpload
  by_cases h : f.hasFile = false
  · rw [if_pos h, updateFileStatus_maxConcurrent]
  · rw [if_neg h]
    show (updateFileStatus q f.id .uploading none).maxConcurrent = _
    rw [updateFileStatus_maxConcurrent]

theorem foldStart_activeUploads_le (l : List UFile) (q : UQueue) :
    ((l.foldl startSingleUpload q).activeUploads) ≤
      q.activeUploads + (l.length : Int) := by
  induction l generalizing q with
  | nil => simp
  | cons x xs ih =>
    rw [List.foldl_cons]
    calc ((xs.foldl startSingleUpload (startSingleUpload q x)).activeUploads)
        ≤ (startSingleUpload q x).activeUploads + (xs.length : Int) := ih _
      _ ≤ q.activeUploads + 1 + (xs.length : Int) := by
          have := startSingleUpload_activeUploads_le q x; omega
      _ ≤ q.activeUploads + ((x :: xs).length : Int) := by
          simp; omega

theorem foldStart_activeUploads_ge (l : List UFile) (q : UQueue) :
    q.activeUploads ≤ (l.foldl startSingleUpload q).activeUploads := by
  induction l generalizing q with
  | nil => exact le_refl _
  | cons x xs ih =>
    rw [List.foldl_cons]
    exact le_trans (startSingleUpload_activeUploads_ge q x) (ih _)

theorem foldStart_maxConcurrent (l : List UFile) (q : UQueue) :
    (l.foldl startSingleUpload q).maxConcurrent = q.maxConcurrent := by
  induction l generalizing q with
  | nil => rfl
  | cons x xs ih =>
    rw [List.foldl_cons, ih, startSingleUpload_maxConcurrent]

theorem processUploadQueue_nonneg (q : UQueue) (h : 0 ≤ q.activeUploads) :
    0 ≤ (processUploadQueue q).activeUploads := by
  unfold processUploadQueue
  by_cases hc : 0 < q.maxConcurrent - q.activeUploads ∧ q.files.filter isPending ≠ []
  · rw [if_pos hc]
    exact le_trans h (foldStart_activeUploads_ge _ _)
  · rw [if_neg hc]; exact h

theorem processUploadQueue_maxConcurrent (q : UQueue) :
    (processUploadQueue q).maxConcurrent = q.maxConcurrent := by
  unfold processUploadQueue
  by_cases hc : 0 < q.maxConcurrent - q.activeUploads ∧ q.files.filter isPending ≠ []
  · rw [if_pos hc, foldStart_maxConcurrent]
  · rw [if_neg hc]

theorem processUploadQueue_bound (q : UQueue) (_h0 : 0 ≤ q.activeUploads)
    (h : q.activeUploads ≤ q.maxConcurrent) :
    (processUploadQueue q).activeUploads ≤ q.maxConcurrent := by
  unfold processUploadQueue
  by_cases hc : 0 < q.maxConcurrent - q.activeUploads ∧ q.files.filter isPending ≠ []
  · rw [if_pos hc]
    have hfold := foldStart_activeUploads_le
      ((q.files.filter isPending).take (q.maxConcurrent - q.activeUploads).toNat) q
    have hlen : (((q.files.filter isPending).take
        (q.maxConcurrent - q.activeUploads).toNat).length) ≤
        (q.maxConcurrent - q.activeUploads).toNat := by
      rw [List.length_take]; exact Nat.min_le_left _ _
    omega
  · rw [if_neg hc]; exact h

/-! ## Claim C10: the published counter is never negative -/

theorem uStep_nonneg (q : UQueue) (op : UOp) (h : 0 ≤ q.activeUploads) :
    0 ≤ (uStep q op).activeUploads := by
  cases op with
  | addFiles cs => exact h
  | startAll => exact processUploadQueue_nonneg q h
  | startById fid =>
    show 0 ≤ (startUploadById q fid).activeUploads
    unfold startUploadById
    cases q.files.find? (fun f => f.id == fid && isPending f) with
    | none => exact h
    | some f => exact le_trans h (startSingleUpload_activeUploads_ge q f)
  | progressEvent fid p => exact h
  | complete fid o =>
    show 0 ≤ (completeUpload q fid o).activeUploads
    cases o with
    | respSuccess => exact processUploadQueue_nonneg _ (le_max_left 0 _)
    | respFailed e => exact processUploadQueue_nonneg _ (le_max_left 0 _)
    | transportError e =>
      exact processUploadQueue_nonneg _ (le_max_left 0 _)
  | cancel fid => exact h
  | cancelAll => exact le_refl 0
  | retry fid =>
    show 0 ≤ (retryUpload q fid).activeUploads
    unfold retryUpload
    split
    · split
      · exact processUploadQueue_nonneg _ h
      · exact h
    · exact h
  | clearCompleted => exact h

theorem uRun_nonneg (ops : List UOp) (q : UQueue) (h : 0 ≤ q.activeUploads) :
    0 ≤ (uRun q ops).activeUploads := by
  induction ops generalizing q with
  | nil => exact h
  | cons op ops ih => exact ih (uStep q op) (uStep_nonneg q op h)

/-- Claim C10: along every sequence of queue operations and network
completion deliveries — including spurious completions for tasks that
`cancelAllUploads` has already dropped, and out-of-budget starts via
`startUploadById` — the published `activeUploads` value is never negative:
`decrementActiveUploads` clamps at zero and `cancelAllUploads` resets to
zero.  Quantifying over all operation sequences covers every observable
point of the queue-state stream. -/
theorem c10_activeUploads_nonneg (ops : List UOp) :
    0 ≤ (uRun initialQueue ops).activeUploads :=
  uRun_nonneg ops initialQueue (by decide)

/-! ## Claim C3: the concurrency bound -/

/-- The bound invariant that survives scheduler-only operation: the counter
is within `[0, maxConcurrent]` and `maxConcurrent` is the constant 3. -/
def BoundInv (q : UQueue) : Prop :=
  0 ≤ q.activeUploads ∧ q.activeUploads ≤ q.maxConcurrent ∧ q.maxConcurrent = 3

theorem processUploadQueue_boundInv (q : UQueue) (h : BoundInv q) :
    BoundInv (processUploadQueue q) := by
  obtain ⟨h0, h1, h2⟩ := h
  refine ⟨processUploadQueue_nonneg q h0, ?_, ?_⟩
  · rw [processUploadQueue_maxConcurrent]
    exact processUploadQueue_bound q h0 h1
  · rw [processUploadQueue_maxConcurrent]; exact h2

theorem decrementActiveUploads_boundInv (q : UQueue) (h : BoundInv q) :
    BoundInv (decrementActiveUploads q) := by
  obtain ⟨h0, h1, h2⟩ := h
  refine ⟨le_max_left 0 _, ?_, h2⟩
  show max 0 (q.activeUploads - 1) ≤ q.maxConcurrent
  exact max_le (by omega) (by omega)

theorem updateFileStatus_boundInv (q : UQueue) (fid : Nat) (st : UStatus)
    (e : Option String) (h : BoundInv q) :
    BoundInv (updateFileStatus q fid st e) := h

theorem uStep_boundInv (q : UQueue) (op : UOp)
    (hop : (match op with | .startById _ => false | _ => true) = true)
    (h : BoundInv q) : BoundInv (uStep q op) := by
  cases op with
  | addFiles cs => exact h
  | startAll => exact processUploadQueue_boundInv q h
  | startById fid => cases hop
  | progressEvent fid p => exact h
  | complete fid o =>
    show BoundInv (completeUpload q fid o)
    cases o with
    | respSuccess =>
      exact processUploadQueue_boundInv _ (decrementActiveUploads_boundInv _
        (updateFileStatus_boundInv _ _ _ _ h))
    | respFailed e =>
      exact processUploadQueue_boundInv _ (decrementActiveUploads_boundInv _
        (updateFileStatus_boundInv _ _ _ _ h))
    | transportError e =>
      apply processUploadQueue_boundInv
      apply decrementActiveUploads_boundInv
      apply updateFileStatus_boundInv
      exact processUploadQueue_boundInv _ (decrementActiveUploads_boundInv _
        (updateFileStatus_boundInv _ _ _ _ h))
  | cancel fid => exact h
  | cancelAll =>
    refine ⟨le_refl 0, ?_, rfl⟩
    show (0 : Int) ≤ MAX_CONCURRENT_UPLOADS
    decide
  | retry fid =>
    show BoundInv (retryUpload q fid)
    unfold retryUpload
    split
    · split
      · exact processUploadQueue_boundInv _ h
      · exact h
    · exact h
  | clearCompleted => exact h

theorem uRun_boundInv (ops : List UOp) (q : UQueue)
    (hops : schedulerOnly ops = true) (h : BoundInv q) :
    BoundInv (uRun q ops) := by
  induction ops generalizing q with
  | nil => exact h
  | cons op ops ih =>
    rw [schedulerOnly, List.all_cons, Bool.and_eq_true] at hops
    exact ih (uStep q op) hops.2 (uStep_boundInv q op hops.1 h)

/-- Claim C3 (counterexample): the queue invariant fails on the code.
Enqueue four valid files, start the queue (three become `uploading`,
`activeUploads = 3`), then call `startUploadById` on the fourth: it starts
without consulting the budget, driving `activeUploads` to 4 > 3.  After a
`cancelUpload` of one uploading task (which does not decrement),
`activeUploads = 4` while only three tasks are `uploading`, so the equality
`activeCount = |{t : t.state = uploading}|` fails at the same observable
point as the bound. -/
theorem c3_counterexample :
    ¬ ((uRun initialQueue
        [.addFiles [⟨"a.pdf", 1⟩, ⟨"b.pdf", 1⟩, ⟨"c.pdf", 1⟩, ⟨"d.pdf", 1⟩],
         .startAll, .startById 3, .cancel 0]).activeUploads ≤
       (uRun initialQueue
        [.addFiles [⟨"a.pdf", 1⟩, ⟨"b.pdf", 1⟩, ⟨"c.pdf", 1⟩, ⟨"d.pdf", 1⟩],
         .startAll, .startById 3, .cancel 0]).maxConcurrent) ∧
    (uRun initialQueue
        [.addFiles [⟨"a.pdf", 1⟩, ⟨"b.pdf", 1⟩, ⟨"c.pdf", 1⟩, ⟨"d.pdf", 1⟩],
         .startAll, .startById 3, .cancel 0]).activeUploads ≠
      (((uRun initialQueue
        [.addFiles [⟨"a.pdf", 1⟩, ⟨"b.pdf", 1⟩, ⟨"c.pdf", 1⟩, ⟨"d.pdf", 1⟩],
         .startAll, .startById 3, .cancel 0]).files.filter
           (fun f => f.status == .uploading)).length : Int) := by
  decide

/-- Claim C3 (amended): for every operation sequence in which uploads are
started only through the scheduler (`startAllUploads` / backfill after a
completion / retry — no `startUploadById`), the published counter satisfies
`0 ≤ activeUploads ≤ maxConcurrent = 3` at every observable point (every
prefix of the sequence ends in such a state). -/
theorem c3_bound_holds_without_startById (ops : List UOp)
    (hops : schedulerOnly ops = true) :
    (uRun initialQueue ops).activeUploads ≤ (uRun initialQueue ops).maxConcurrent ∧
    (uRun initialQueue ops).maxConcurrent = 3 := by
  have h := uRun_boundInv ops initialQueue hops ⟨by decide, by decide, rfl⟩
  exact ⟨h.2.1, h.2.2⟩

/-- Witness for `c3_bound_holds_without_startById` on a concrete
scheduler-only trace: ten valid files enqueued and started, one completes. -/
theorem c3_bound_holds_without_startById_witness :
    (uRun initialQueue
      [.addFiles [⟨"a.pdf", 1⟩, ⟨"b.pdf", 1⟩, ⟨"c.pdf", 1⟩, ⟨"d.pdf", 1⟩,
                  ⟨"e.pdf", 1⟩, ⟨"f.pdf", 1⟩, ⟨"g.pdf", 1⟩, ⟨"h.pdf", 1⟩,
                  ⟨"i.pdf", 1⟩, ⟨"j.pdf", 1⟩],
       .startAll, .complete 0 .respSuccess]).activeUploads ≤
    (uRun initialQueue
      [.addFiles [⟨"a.pdf", 1⟩, ⟨"b.pdf", 1⟩, ⟨"c.pdf", 1⟩, ⟨"d.pdf", 1⟩,
                  ⟨"e.pdf", 1⟩, ⟨"f.pdf", 1⟩, ⟨"g.pdf", 1⟩, ⟨"h.pdf", 1⟩,
                  ⟨"i.pdf", 1⟩, ⟨"j.pdf", 1⟩],
       .startAll, .complete 0 .respSuccess]).maxConcurrent :=
  (c3_bound_holds_without_startById
    [.addFiles [⟨"a.pdf", 1⟩, ⟨"b.pdf", 1⟩, ⟨"c.pdf", 1⟩, ⟨"d.pdf", 1⟩,
                ⟨"e.pdf", 1⟩, ⟨"f.pdf", 1⟩, ⟨"g.pdf", 1⟩, ⟨"h.pdf", 1⟩,
                ⟨"i.pdf", 1⟩, ⟨"j.pdf", 1⟩],
     .startAll, .complete 0 .respSuccess] (by decide)).1

/-! ## Claim C4: admission of a doubly-invalid candidate -/

/-- Claim C4 (counterexample): a candidate violating BOTH rules (101 MB + 1
byte, extension `exe`) is rejected with ONLY the size reason —
`validateFile` returns on the first failed check, so the extension reason
never reaches the report — and the queue stays empty. -/
theorem c4_counterexample :
    admissionReport [⟨"a.exe", 104857601⟩] =
      [("a.exe", .sizeExceeded 104857601)] ∧
    (uRun initialQueue [.addFiles [⟨"a.exe", 104857601⟩]]).files = [] ∧
    ¬ (∃ x ∈ admissionReport [⟨"a.exe", 104857601⟩],
        x.2 = VError.typeNotAllowed "exe") := by
  decide

/-- Claim C4 (amended): a candidate that violates both admission rules is
rejected exactly once — one report entry — but with only the first violated
rule's reason (the size-exceeded reason; the checks run sequentially with
an early return, so the extension violation goes unreported), and the file
never enters the queue. -/
theorem c4_both_violations (c : Candidate) (q : UQueue)
    (hsize : c.size > MAX_FILE_SIZE)
    (hext : fileExt c.name ∉ ALLOWED_FILE_TYPES) :
    admissionReport [c] = [(c.name, .sizeExceeded c.size)] ∧
    (uStep q (.addFiles [c])).files = q.files := by
  have hv : validateFile c = some (.sizeExceeded c.size) := by
    unfold validateFile
    rw [if_pos hsize]
  refine ⟨?_, ?_⟩
  · simp [admissionReport, hv]
  · show (addFilesToQueue q [c]).files = q.files
    simp [addFilesToQueue, mkTasks, hv]

/-- Witness for `c4_both_violations` at the concrete doubly-invalid
candidate, against the empty initial queue. -/
theorem c4_both_violations_witness :
    admissionReport [⟨"a.exe", 104857601⟩] =
      [("a.exe", .sizeExceeded 104857601)] ∧
    (uStep initialQueue (.addFiles [⟨"a.exe", 104857601⟩])).files =
      initialQueue.files :=
  c4_both_violations ⟨"a.exe", 104857601⟩ initialQueue (by decide) (by decide)

/-! ## Claim C5: completion of an abandoned (cancelled) task -/

theorem setFirstById_absent (fs : List UFile) (fid : Nat) (g : UFile → UFile)
    (h : ∀ f ∈ fs, f.id ≠ fid) : setFirstById fs fid g = fs := by
  induction fs with
  | nil => rfl
  | cons f rest ih =>
    unfold setFirstById
    rw [if_neg (h f (List.mem_cons_self f rest))]
    rw [ih (fun x hx => h x (List.mem_cons_of_mem f hx))]

theorem updateFileStatus_absent (q : UQueue) (fid : Nat) (st : UStatus)
    (e : Option String) (h : fid ∉ q.files.map UFile.id) :
    updateFileStatus q fid st e = q := by
  unfold updateFileStatus
  rw [setFirstById_absent]
  intro f hf he
  exact h (he ▸ List.mem_map_of_mem UFile.id hf)

theorem processUploadQueue_no_pending (q : UQueue)
    (h : q.files.filter isPending = []) : processUploadQueue q = q := by
  unfold processUploadQueue
  rw [if_neg]
  intro hcon
  exact hcon.2 h

/-- Claim C5 (counterexample): completion of a cancelled task's abandoned
network call is NOT a no-op on the queue.  One task is uploading
(`activeUploads = 1`); `cancelUpload` removes it (without decrementing);
when the abandoned request's terminal completion is delivered, the
subscriber still runs `decrementActiveUploads`, changing `activeUploads`
from 1 to 0. -/
theorem c5_counterexample :
    (uRun { files := [⟨0, "a.pdf", 5, .uploading, 10, none, true⟩],
            activeUploads := 1, maxConcurrent := 3, nextId := 1 }
       [.cancel 0, .complete 0 .respSuccess]).activeUploads ≠
    (uRun { files := [⟨0, "a.pdf", 5, .uploading, 10, none, true⟩],
            activeUploads := 1, maxConcurrent := 3, nextId := 1 }
       [.cancel 0]).activeUploads := by
  decide

/-- Claim C5 (amended): delivering a terminal completion for a task id that
is no longer in the queue never resurrects the task and never touches any
remaining task (here isolated by assuming no pending task, so the
scheduler pass is a no-op) — but it is not a frame-preserving no-op: the
subscriber unconditionally decrements `activeUploads` (clamped at zero)
and re-runs the scheduler, which may start pending tasks. -/
theorem c5_completion_after_cancel (q : UQueue) (fid : Nat)
    (hid : fid ∉ q.files.map UFile.id)
    (hnp : q.files.filter isPending = []) :
    uStep q (.complete fid .respSuccess) =
      { q with activeUploads := max 0 (q.activeUploads - 1) } := by
  show processUploadQueue
      (decrementActiveUploads (updateFileStatus q fid .success none)) = _
  rw [updateFileStatus_absent q fid .success none hid]
  exact processUploadQueue_no_pending _ hnp

/-- Witness for `c5_completion_after_cancel`: a queue holding one settled
task, delivered a completion for the (cancelled, absent) id 7. -/
theorem c5_completion_after_cancel_witness :
    uStep { files := [⟨0, "a.pdf", 5, .success, 100, none, true⟩],
            activeUploads := 2, maxConcurrent := 3, nextId := 1 }
      (.complete 7 .respSuccess) =
    { files := [⟨0, "a.pdf", 5, .success, 100, none, true⟩],
      activeUploads := max 0 (2 - 1), maxConcurrent := 3, nextId := 1 } :=
  c5_completion_after_cancel
    { files := [⟨0, "a.pdf", 5, .success, 100, none, true⟩],
      activeUploads := 2, maxConcurrent := 3, nextId := 1 }
    7 (by decide) (by decide)

/-! ## Status tracking through the scheduler -/

theorem setFirstById_map_id (fs : List UFile) (fid : Nat) (g : UFile → UFile)
    (hg : ∀ f, (g f).id = f.id) :
    (setFirstById fs fid g).map UFile.id = fs.map UFile.id := by
  induction fs with
  | nil => rfl
  | cons f rest ih =>
    unfold setFirstById
    by_cases h : f.id = fid
    · rw [if_pos h, List.map_cons, List.map_cons, hg]
    · rw [if_neg h, List.map_cons, List.map_cons, ih]

theorem writeStatus_id (st : UStatus) (e : Option String) (f : UFile) :
    (writeStatus st e f).id = f.id := rfl

theorem updateFileStatus_map_id (q : UQueue) (fid : Nat) (st : UStatus)
    (e : Option String) :
    (updateFileStatus q fid st e).files.map UFile.id = q.files.map UFile.id :=
  setFirstById_map_id q.files fid (writeStatus st e) (writeStatus_id st e)

theorem startSingleUpload_map_id (q : UQueue) (f : UFile) :
    (startSingleUpload q f).files.map UFile.id = q.files.map UFile.id := by
  unfold startSingleUpload
  by_cases h : f.hasFile = false
  · rw [if_pos h]; exact updateFileStatus_map_id q f.id .failed _
  · rw [if_neg h]
    show (updateFileStatus q f.id .uploading none).files.map UFile.id = _
    exact updateFileStatus_map_id q f.id .uploading none

theorem foldStart_map_id (l : List UFile) (q : UQueue) :
    (l.foldl startSingleUpload q).files.map UFile.id = q.files.map UFile.id := by
  induction l generalizing q with
  | nil => rfl
  | cons x xs ih =>
    rw [List.foldl_cons, ih, startSingleUpload_map_id]

theorem find?_id_cons (fs : List UFile) (f : UFile) (x : Nat) :
    (f :: fs).find? (fun g => g.id == x) =
      if f.id = x then some f else fs.find? (fun g => g.id == x) := by
  by_cases h : f.id = x
  · simp [List.find?, h]
  · simp [List.find?, h, beq_false_of_ne h]

theorem find?_setFirstById_ne (fs : List UFile) (fid x : Nat)
    (g : UFile → UFile) (hg : ∀ f, (g f).id = f.id) (hx : fid ≠ x) :
    (setFirstById fs fid g).find? (fun f => f.id == x) =
      fs.find? (fun f => f.id == x) := by
  induction fs with
  | nil => rfl
  | cons f rest ih =>
    unfold setFirstById
    by_cases h : f.id = fid
    · rw [if_pos h, find?_id_cons, find?_id_cons]
      rw [if_neg (by rw [hg, h]; exact hx), if_neg (by rw [h]; exact hx)]
    · rw [if_neg h, find?_id_cons, find?_id_cons]
      by_cases hfx : f.id = x
      · rw [if_pos hfx, if_pos hfx]
      · rw [if_neg hfx, if_neg hfx, ih]

theorem find?_setFirstById_self (fs : List UFile) (fid : Nat)
    (g : UFile → UFile) (hg : ∀ f, (g f).id = f.id) :
    (setFirstById fs fid g).find? (fun f => f.id == fid) =
      (fs.find? (fun f => f.id == fid)).map g := by
  induction fs with
  | nil => rfl
  | cons f rest ih =>
    unfold setFirstById
    by_cases h : f.id = fid
    · rw [if_pos h, find?_id_cons, find?_id_cons]
      rw [if_pos (by rw [hg]; exact h), if_pos h]
      rfl
    · rw [if_neg h, find?_id_cons, find?_id_cons]
      rw [if_neg h, if_neg h, ih]

theorem statusOf_update_other (q : UQueue) (fid : Nat) (st : UStatus)
    (e : Option String) (x : Nat) (hx : fid ≠ x) :
    statusOf (updateFileStatus q fid st e) x = statusOf q x := by
  show ((setFirstById q.files fid (writeStatus st e)).find?
      (fun f => f.id == x)).map UFile.status =
    (q.files.find? (fun f => f.id == x)).map UFile.status
  rw [find?_setFirstById_ne q.files fid x _ (writeStatus_id st e) hx]

theorem statusOf_update_self (q : UQueue) (fid : Nat) (st : UStatus)
    (e : Option String) (hex : fid ∈ q.files.map UFile.id) :
    statusOf (updateFileStatus q fid st e) fid = some st := by
  show ((setFirstById q.files fid (writeStatus st e)).find?
      (fun f => f.id == fid)).map UFile.status = some st
  rw [find?_setFirstById_self q.files fid _ (writeStatus_id st e)]
  obtain ⟨f, hf⟩ : ∃ f, q.files.find? (fun g => g.id == fid) = some f := by
    rcases List.mem_map.mp hex with ⟨f, hfm, hfid⟩
    have hsome : (q.files.find? (fun g => g.id == fid)).isSome := by
      rw [List.find?_isSome]
      exact ⟨f, hfm, by simp [hfid]⟩
    exact Option.isSome_iff_exists.mp hsome
  rw [hf]
  rfl

theorem statusOf_start_other (q : UQueue) (f : UFile) (x : Nat)
    (hx : f.id ≠ x) :
    statusOf (startSingleUpload q f) x = statusOf q x := by
  unfold startSingleUpload
  by_cases h : f.hasFile = false
  · rw [if_pos h]; exact statusOf_update_other q f.id .failed _ x hx
  · rw [if_neg h]
    show statusOf (incrementActiveUploads
      (updateFileStatus q f.id .uploading none)) x = statusOf q x
    exact statusOf_update_other q f.id .uploading none x hx

theorem statusOf_start_self (q : UQueue) (f : UFile) (haf : f.hasFile = true)
    (hex : f.id ∈ q.files.map UFile.id) :
    statusOf (startSingleUpload q f) f.id = some .uploading := by
  unfold startSingleUpload
  rw [if_neg (by simp [haf])]
  show statusOf (incrementActiveUploads
    (updateFileStatus q f.id .uploading none)) f.id = some .uploading
  exact statusOf_update_self q f.id .uploading none hex

theorem foldStart_statusOf_other (l : List UFile) (q : UQueue) (x : Nat)
    (hl : ∀ f ∈ l, f.id ≠ x) :
    statusOf (l.foldl startSingleUpload q) x = statusOf q x := by
  induction l generalizing q with
  | nil => rfl
  | cons f fs ih =>
    rw [List.foldl_cons, ih _ (fun g hg => hl g (List.mem_cons_of_mem f hg)),
        statusOf_start_other q f x (hl f (List.mem_cons_self f fs))]

theorem foldStart_statusOf_mem (l : List UFile) (q : UQueue) (a : UFile)
    (hpw : l.Pairwise (fun u v => u.id ≠ v.id)) (ha : a ∈ l)
    (haf : a.hasFile = true) (hex : a.id ∈ q.files.map UFile.id) :
    statusOf (l.foldl startSingleUpload q) a.id = some .uploading := by
  induction l generalizing q with
  | nil => cases ha
  | cons x xs ih =>
    obtain ⟨hx, hpw2⟩ := List.pairwise_cons.mp hpw
    rw [List.foldl_cons]
    rcases List.mem_cons.mp ha with rfl | ha2
    · rw [foldStart_statusOf_other xs _ a.id
        (fun g hg => (hx g hg).symm)]
      exact statusOf_start_self q a haf hex
    · exact ih (startSingleUpload q x) hpw2 ha2
        (by rw [startSingleUpload_map_id]; exact hex)

/-! ## Id-uniqueness machinery -/

theorem eq_of_mem_of_id_eq (fs : List UFile)
    (hnd : (fs.map UFile.id).Nodup) (x y : UFile)
    (hx : x ∈ fs) (hy : y ∈ fs) (he : x.id = y.id) : x = y := by
  induction fs with
  | nil => cases hx
  | cons f rest ih =>
    rw [List.map_cons, List.nodup_cons] at hnd
    rcases List.mem_cons.mp hx with rfl | hx2 <;>
      rcases List.mem_cons.mp hy with rfl | hy2
    · rfl
    · exfalso; apply hnd.1; rw [he]; exact List.mem_map_of_mem UFile.id hy2
    · exfalso; apply hnd.1; rw [← he]; exact List.mem_map_of_mem UFile.id hx2
    · exact ih hnd.2 hx2 hy2

theorem pairwise_id_ne_of_nodup (l : List UFile)
    (h : (l.map UFile.id).Nodup) : l.Pairwise (fun u v => u.id ≠ v.id) := by
  induction l with
  | nil => exact List.Pairwise.nil
  | cons x xs ih =>
    rw [List.map_cons, List.nodup_cons] at h
    refine List.Pairwise.cons ?_ (ih h.2)
    intro y hy he
    apply h.1; rw [he]; exact List.mem_map_of_mem UFile.id hy

theorem find?_id_eq_of_mem_nodup (fs : List UFile) (b : UFile)
    (hnd : (fs.map UFile.id).Nodup) (hb : b ∈ fs) :
    fs.find? (fun f => f.id == b.id) = some b := by
  induction fs with
  | nil => cases hb
  | cons f rest ih =>
    rw [find?_id_cons]
    rw [List.map_cons, List.nodup_cons] at hnd
    rcases List.mem_cons.mp hb with rfl | hb2
    · rw [if_pos rfl]
    · rw [if_neg ?_, ih hnd.2 hb2]
      intro he
      apply hnd.1; rw [he]; exact List.mem_map_of_mem UFile.id hb2

theorem statusOf_base (q : UQueue) (b : UFile)
    (hnd : (q.files.map UFile.id).Nodup) (hb : b ∈ q.files) :
    statusOf q b.id = some b.status := by
  show (q.files.find? (fun f => f.id == b.id)).map UFile.status = some b.status
  rw [find?_id_eq_of_mem_nodup q.files b hnd hb]
  rfl

/-- In a list whose ids are distinct, if `a` occurs before `b` and `b`
survives into the first `n` elements, so does `a`. -/
theorem mem_take_of_sublist_pair (P : List UFile) (a b : UFile) (n : Nat)
    (hnd : (P.map UFile.id).Nodup) (hsub : [a, b].Sublist P)
    (hb : b ∈ P.take n) : a ∈ P.take n := by
  induction P generalizing n with
  | nil => cases hsub.subset (List.mem_cons_self a [b])
  | cons p ps ih =>
    cases n with
    | zero => cases hb
    | succ k =>
      rw [List.take_succ_cons] at hb ⊢
      rw [List.map_cons, List.nodup_cons] at hnd
      cases hsub with
      | cons _ h2 =>
        rcases List.mem_cons.mp hb with rfl | hb2
        · exfalso
          apply hnd.1
          exact List.mem_map_of_mem UFile.id (h2.subset (by simp))
        · exact List.mem_cons_of_mem p (ih k hnd.2 h2 hb2)
      | cons₂ h2 =>
        exact List.mem_cons_self a _

/-! ## Claim C9: FIFO scheduling -/

/-- Claim C9: `processUploadQueue` starts pending tasks strictly in queue
order.  If `a` is enqueued before `b`, both are `pending` (and `a` carries
its raw file handle), then whenever the scheduler pass starts `b`, it has
also started `a`: the earliest-enqueued pending task always starts no
later than any later-enqueued pending task.  Task ids are assumed distinct,
as `generateId()` guarantees. -/
theorem c9_fifo_scheduling (q : UQueue) (a b : UFile)
    (hnd : (q.files.map UFile.id).Nodup)
    (hsub : [a, b].Sublist q.files)
    (ha : a.status = .pending) (haf : a.hasFile = true)
    (hb : b.status = .pending)
    (hstart : statusOf (processUploadQueue q) b.id = some .uploading) :
    statusOf (processUploadQueue q) a.id = some .uploading := by
  have hbq : b ∈ q.files := hsub.subset (by simp)
  have haq : a ∈ q.files := hsub.subset (by simp)
  by_cases hc : 0 < q.maxConcurrent - q.activeUploads ∧
      q.files.filter isPending ≠ []
  case neg =>
    exfalso
    have hqq : processUploadQueue q = q := by
      unfold processUploadQueue; rw [if_neg hc]
    rw [hqq, statusOf_base q b hnd hbq, hb] at hstart
    cases hstart
  case pos =>
    have hfold : processUploadQueue q =
        ((q.files.filter isPending).take
          (q.maxConcurrent - q.activeUploads).toNat).foldl startSingleUpload q := by
      unfold processUploadQueue; rw [if_pos hc]
    rw [hfold] at hstart ⊢
    have hPsub : (q.files.filter isPending).Sublist q.files :=
      q.files.filter_sublist
    have hPnd : ((q.files.filter isPending).map UFile.id).Nodup :=
      hnd.sublist (hPsub.map UFile.id)
    have hbmem : b ∈ (q.files.filter isPending).take
        (q.maxConcurrent - q.activeUploads).toNat := by
      by_contra hbn
      have hall : ∀ f ∈ (q.files.filter isPending).take
          (q.maxConcurrent - q.activeUploads).toNat, f.id ≠ b.id := by
        intro f hf he
        have hfq : f ∈ q.files :=
          hPsub.subset ((q.files.filter isPending).take_subset _ hf)
        exact hbn ((eq_of_mem_of_id_eq q.files hnd f b hfq hbq he) ▸ hf)
      rw [foldStart_statusOf_other _ q b.id hall,
          statusOf_base q b hnd hbq, hb] at hstart
      cases hstart
    have habP : [a, b].Sublist (q.files.filter isPending) := by
      have h1 := hsub.filter isPending
      have h2 : [a, b].filter isPending = [a, b] := by
        simp [List.filter, isPending, ha, hb]
      rw [h2] at h1
      exact h1
    have hamem : a ∈ (q.files.filter isPending).take
        (q.maxConcurrent - q.activeUploads).toNat :=
      mem_take_of_sublist_pair _ a b _ hPnd habP hbmem
    refine foldStart_statusOf_mem _ q a ?_ hamem haf
      (List.mem_map_of_mem UFile.id haq)
    exact pairwise_id_ne_of_nodup _
      (hPnd.sublist (((q.files.filter isPending).take_sublist _).map UFile.id))

/-- Witness for `c9_fifo_scheduling`: two pending tasks in queue order;
the scheduler starts the later-enqueued one, so it has started the
earlier one. -/
theorem c9_fifo_scheduling_witness :
    statusOf (processUploadQueue
      { files := [⟨0, "a.pdf", 1, .pending, 0, none, true⟩,
                  ⟨1, "b.pdf", 1, .pending, 0, none, true⟩],
        activeUploads := 0, maxConcurrent := 3, nextId := 2 }) 0 =
      some .uploading :=
  c9_fifo_scheduling
    { files := [⟨0, "a.pdf", 1, .pending, 0, none, true⟩,
                ⟨1, "b.pdf", 1, .pending, 0, none, true⟩],
      activeUploads := 0, maxConcurrent := 3, nextId := 2 }
    ⟨0, "a.pdf", 1, .pending, 0, none, true⟩
    ⟨1, "b.pdf", 1, .pending, 0, none, true⟩
    (by decide) (List.Sublist.refl _) rfl rfl rfl (by decide)

/-! ## Claim C7: when the scheduler runs -/

theorem mkTasks_pending (sid : Nat) (cs : List Candidate) :
    ∀ f ∈ mkTasks sid cs, f.status = .pending := by
  induction cs generalizing sid with
  | nil => intro f hf; cases hf
  | cons c cs ih =>
    intro f hf
    unfold mkTasks at hf
    cases hv : validateFile c with
    | none =>
      rw [hv] at hf
      rcases List.mem_cons.mp hf with rfl | hf2
      · rfl
      · exact ih _ f hf2
    | some e =>
      rw [hv] at hf
      exact ih _ f hf

/-- A scheduler pass on a queue with a free slot starts the first pending
task (which carries its file handle). -/
theorem processUploadQueue_starts_first_pending (q : UQueue) (p : UFile)
    (hnd : (q.files.map UFile.id).Nodup)
    (hh : (q.files.filter isPending).head? = some p)
    (hpf : p.hasFile = true)
    (hlt : q.activeUploads < q.maxConcurrent) :
    statusOf (processUploadQueue q) p.id = some .uploading := by
  have hpos : 0 < q.maxConcurrent - q.activeUploads := by omega
  obtain ⟨rest, hP⟩ : ∃ rest, q.files.filter isPending = p :: rest := by
    cases hP0 : q.files.filter isPending with
    | nil => rw [hP0] at hh; cases hh
    | cons x xs =>
      rw [hP0] at hh
      injection hh with h1
      exact ⟨xs, by rw [h1]⟩
  have hne : q.files.filter isPending ≠ [] := by
    rw [hP]; exact List.cons_ne_nil p rest
  have hfold : processUploadQueue q =
      ((q.files.filter isPending).take
        (q.maxConcurrent - q.activeUploads).toNat).foldl startSingleUpload q := by
    unfold processUploadQueue; rw [if_pos ⟨hpos, hne⟩]
  rw [hfold]
  have hn1 : 1 ≤ (q.maxConcurrent - q.activeUploads).toNat := by omega
  have hpmem : p ∈ (q.files.filter isPending).take
      (q.maxConcurrent - q.activeUploads).toNat := by
    rw [hP]
    cases hnn : (q.maxConcurrent - q.activeUploads).toNat with
    | zero => omega
    | succ k => rw [List.take_succ_cons]; exact List.mem_cons_self p _
  have hPnd : ((q.files.filter isPending).map UFile.id).Nodup :=
    hnd.sublist ((q.files.filter_sublist).map UFile.id)
  refine foldStart_statusOf_mem _ q p ?_ hpmem hpf ?_
  · exact pairwise_id_ne_of_nodup _
      (hPnd.sublist (((q.files.filter isPending).take_sublist _).map UFile.id))
  · have hpmemP : p ∈ q.files.filter isPending := by
      rw [hP]; exact List.mem_cons_self p rest
    have hsubP : (q.files.filter isPending).Sublist q.files :=
      q.files.filter_sublist
    exact List.mem_map_of_mem UFile.id (hsubP.subset hpmemP)

/-- Claim C7 (counterexample): the scheduler is NOT invoked after
admission.  Admitting one valid file into the empty queue (all three
slots free) leaves the task `pending` with `activeUploads = 0`: no
pending-to-uploading transition happens until a further operation
(`startAllUploads`, `startUploadById`, or a settling task) runs —
`addFilesToQueue` logs "Use startUpload() to begin uploading" instead of
calling `processUploadQueue`. -/
theorem c7_no_scheduling_on_admission :
    (uStep initialQueue (.addFiles [⟨"a.pdf", 5⟩])).activeUploads = 0 ∧
    (uStep initialQueue (.addFiles [⟨"a.pdf", 5⟩])).files.map UFile.status =
      [.pending] ∧
    0 < (uStep initialQueue (.addFiles [⟨"a.pdf", 5⟩])).maxConcurrent := by
  decide

/-- Claim C7 (amended): admission never schedules — `addFilesToQueue` only
appends the accepted candidates as `pending` tasks, leaving `activeUploads`
and all existing tasks untouched — while every task settlement does invoke
the scheduler: after a completion is applied (status written, counter
decremented), the first pending task starts whenever a slot is free.
Tasks therefore move from `pending` to `uploading` only on an explicit
start or on settle-triggered backfill, never on admission alone. -/
theorem c7_scheduler_invocation (q : UQueue) (cs : List Candidate)
    (q2 : UQueue) (fid : Nat) (p : UFile)
    (hnd : (q2.files.map UFile.id).Nodup)
    (hh : ((updateFileStatus q2 fid .success none).files.filter
        isPending).head? = some p)
    (hpf : p.hasFile = true)
    (hlt : max 0 ((updateFileStatus q2 fid .success none).activeUploads - 1) <
        q2.maxConcurrent) :
    (uStep q (.addFiles cs)).activeUploads = q.activeUploads ∧
    (uStep q (.addFiles cs)).files = q.files ++ mkTasks q.nextId cs ∧
    (∀ f ∈ mkTasks q.nextId cs, f.status = .pending) ∧
    statusOf (uStep q2 (.complete fid .respSuccess)) p.id = some .uploading := by
  refine ⟨rfl, rfl, mkTasks_pending q.nextId cs, ?_⟩
  show statusOf (processUploadQueue (decrementActiveUploads
    (updateFileStatus q2 fid .success none))) p.id = some .uploading
  apply processUploadQueue_starts_first_pending
  · show ((updateFileStatus q2 fid .success none).files.map UFile.id).Nodup
    rw [updateFileStatus_map_id]; exact hnd
  · exact hh
  · exact hpf
  · exact hlt

/-- Witness for `c7_scheduler_invocation`: one task completes while another
waits pending; applying the completion starts the pending task. -/
theorem c7_scheduler_invocation_witness :
    statusOf (uStep
      { files := [⟨0, "a.pdf", 1, .uploading, 50, none, true⟩,
                  ⟨1, "b.pdf", 1, .pending, 0, none, true⟩],
        activeUploads := 1, maxConcurrent := 3, nextId := 2 }
      (.complete 0 .respSuccess)) 1 = some .uploading :=
  (c7_scheduler_invocation initialQueue []
    { files := [⟨0, "a.pdf", 1, .uploading, 50, none, true⟩,
                ⟨1, "b.pdf", 1, .pending, 0, none, true⟩],
      activeUploads := 1, maxConcurrent := 3, nextId := 2 }
    0 ⟨1, "b.pdf", 1, .pending, 0, none, true⟩
    (by decide) (by decide) rfl (by decide)).2.2.2
